import Mathlib

/-!
Verification of the `bullhorn-bridge` client library (`src/index.ts`).

The library is a browser-side client that lets an iframe-embedded page talk
to a Bullhorn parent frame over `post-robot`.  This file gives a shallow
embedding of the parts of the `BullhornBridge` class that the specification
claims talk about:

* the origin allow-list check `isAllowedOrigin`,
* the recursive payload sanitizer `sanitizeEventData`,
* the relative-URL validator `validateRelativeUrl` and the HTTP-verb
  gateway methods (`httpGET`, `httpPOST`, `httpPUT`, `httpDELETE`),
* the registration state machine (`register` / `performRegistration` /
  `ensureRegistered` / `isReady`),
* credential extraction (`extractCredentialsFromUrl` and its validators),
* the module-level singleton accessor `getBullhornBridge`.

Modelling conventions: JavaScript values carried in message payloads are
modelled by the inductive type `JsValue`; machine state that the class
mutates is passed explicitly through a `BridgeState` record; the transport
(`postRobot.sendToParent`) is modelled by recording every sent message in
the state and by an oracle (`Nat → Bool` for handshake attempts, an
explicit reply value for verb calls) deciding how the parent answers.  The
JavaScript event loop is single-threaded, so the concurrent-caller claims
are settled against a sequential interleaving model in which a suspended
`await` is a point where other callers may run.
-/

namespace BullhornBridge

/-- JavaScript runtime values, as far as the payloads of this library are
concerned: strings, numbers (modelled as integers; no claim touches
fractional values), booleans, `null`, `undefined`, plain objects (ordered
own-property lists) and arrays. -/
inductive JsValue where
  | str (s : String)
  | num (n : Int)
  | boolean (b : Bool)
  | null
  | undef
  | obj (fields : List (String × JsValue))
  | arr (elems : List JsValue)

/-- Result of `str.replace(/[c₁c₂…]/g, '')` for a character class `bad`:
every occurrence of a character of `bad` is removed, everything else is
kept in order. -/
def removeChars (bad : List Char) : List Char → List Char
  | [] => []
  | c :: rest =>
      if bad.contains c then removeChars bad rest else c :: removeChars bad rest

/-- JavaScript `s.startsWith(pre)` over the character lists of the two
strings. -/
def strStartsWith (s pre : String) : Bool := List.isPrefixOf pre.toList s.toList

/-- JavaScript `haystack.includes(needle)` on strings, over character
lists: does `needle` occur contiguously in `haystack`? -/
def containsSub (needle : List Char) : List Char → Bool
  | [] => needle.isEmpty
  | c :: rest => List.isPrefixOf needle (c :: rest) || containsSub needle rest

/-- JavaScript `a || b` for a nullable string `a`: `b` when `a` is
`null`/`undefined` or the empty string (both falsy), else `a`. -/
def jsOrStr : Option String → Option String → Option String
  | none, b => b
  | some s, b => if s.isEmpty then b else some s

/-- JavaScript truth test `!v` for a nullable string: true on
`null`/`undefined` and on the empty string. -/
def jsFalsyStr : Option String → Bool
  | none => true
  | some s => s.isEmpty

/-! ## Origin validation (`isAllowedOrigin`)

The source builds, for each configured pattern that contains `*`, the
regular expression `new RegExp('^' + allowed.replace(/\*/g, '.*') + '$')`
and tests the origin against it; patterns without `*` are compared for
string equality.  We embed the regular-expression semantics for the
pattern alphabet that such origin patterns are drawn from (letters,
digits, `:`, `/`, `-`, `.`, `*`): after the textual replacement the only
regex constructs that can occur are literal characters, `.` (any single
character) and a `*` quantifier on the preceding one-character atom.
Line-terminator special-casing of `.` is not modelled (origins are
single-line). -/

/-- One-character regex atom: `.` (matches any character) or a literal. -/
inductive RAtom where
  | anyChar
  | lit (c : Char)
deriving DecidableEq

/-- Compiled regex element: a single atom, or an atom under a `*`
quantifier. -/
inductive RTok where
  | once (a : RAtom)
  | star (a : RAtom)
deriving DecidableEq

/-- The textual replacement `allowed.replace(/\*/g, '.*')`. -/
def starReplace : List Char → List Char
  | [] => []
  | c :: rest =>
      if c = '*' then '.' :: '*' :: starReplace rest else c :: starReplace rest

/-- Parse the replaced pattern text as a JavaScript regular expression
over the alphabet described above: `.` is the any-character atom, any
other character a literal atom, and a following `*` stars the atom. -/
def compileRegex : List Char → List RTok
  | [] => []
  | c :: rest =>
      let a := if c = '.' then RAtom.anyChar else RAtom.lit c
      match rest with
      | [] => [RTok.once a]
      | d :: rest' =>
          if d = '*' then RTok.star a :: compileRegex rest'
          else RTok.once a :: compileRegex (d :: rest')

/-- Direct token form of a wildcard pattern: `*` becomes a starred
any-character atom, `.` an any-character atom, anything else a literal. -/
def directToks : List Char → List RTok
  | [] => []
  | c :: rest =>
      if c = '*' then RTok.star RAtom.anyChar :: directToks rest
      else if c = '.' then RTok.once RAtom.anyChar :: directToks rest
      else RTok.once (RAtom.lit c) :: directToks rest

/-- Does an atom match one character? -/
def matchAtom : RAtom → Char → Bool
  | RAtom.anyChar, _ => true
  | RAtom.lit c, d => c == d

/-- Backtracking loop of a starred atom: try the continuation `k` on the
input and on every suffix reachable by consuming characters the atom
accepts. -/
def starLoop (a : RAtom) (k : List Char → Bool) : List Char → Bool
  | [] => k []
  | d :: s => k (d :: s) || (matchAtom a d && starLoop a k s)

/-- Anchored matching of a compiled regex against an input, with the
standard backtracking semantics of the `*` quantifier. -/
def matchToks : List RTok → List Char → Bool
  | [], s => s.isEmpty
  | RTok.once a :: ts, s =>
      match s with
      | [] => false
      | d :: s' => matchAtom a d && matchToks ts s'
  | RTok.star a :: ts, s => starLoop a (matchToks ts) s

/-- The `allowed.includes('*')` test of the source. -/
def hasStar (p : String) : Bool := p.toList.contains '*'

/-- `isAllowedOrigin` from the source: some configured pattern accepts the
origin, a pattern containing `*` accepting by the anchored regex built
from it and any other pattern by exact string equality. -/
def isAllowedOrigin (allowedOrigins : List String) (origin : String) : Bool :=
  allowedOrigins.any fun allowed =>
    if hasStar allowed then
      matchToks (compileRegex (starReplace allowed.toList)) origin.toList
    else
      origin == allowed

/-- The constructor's default `allowedOrigins`. -/
def defaultAllowedOrigins : List String :=
  ["https://*.bullhornstaffing.com", "https://*.bullhorn.com"]

/-- Backtracking loop of a claim-side `*`: try the continuation on the
input and on every suffix. -/
def claimStarLoop (k : List Char → Bool) : List Char → Bool
  | [] => k []
  | d :: s => k (d :: s) || claimStarLoop k s

/-- Wildcard matching as claim C2 words it: a full-string anchored match
in which each `*` matches any substring and every other pattern character
matches only itself literally. -/
def claimWildcardMatch : List Char → List Char → Bool
  | [], s => s.isEmpty
  | c :: ps, s =>
      if c = '*' then claimStarLoop (claimWildcardMatch ps) s
      else
        match s with
        | [] => false
        | d :: s' => c == d && claimWildcardMatch ps s'

/-- The origin check as claim C2 words it: exact equality with some
pattern, or a pattern containing `*` matching with `*` as the only
non-literal character. -/
def claimAllowedOrigin (allowedOrigins : List String) (origin : String) : Bool :=
  allowedOrigins.any fun allowed =>
    origin == allowed ||
    (hasStar allowed && claimWildcardMatch allowed.toList origin.toList)

/-- Declarative semantics of the wildcard patterns as the code's regex
actually interprets them: `*` matches any substring, `.` matches any
single character, and every other pattern character matches only
itself. -/
inductive PatMatch : List Char → List Char → Prop
  | nil : PatMatch [] []
  | lit {c : Char} {ps s} : c ≠ '*' → c ≠ '.' → PatMatch ps s →
      PatMatch (c :: ps) (c :: s)
  | dot {ps s} (d : Char) : PatMatch ps s → PatMatch ('.' :: ps) (d :: s)
  | star {ps s} (u : List Char) : PatMatch ps s → PatMatch ('*' :: ps) (u ++ s)

/-! ## Payload sanitization (`sanitizeEventData`)

The source method is:
strings get `/[<>"']/g` removed; non-null `object` values (which in
JavaScript includes arrays) are copied with `for…in`/`hasOwnProperty` into
a freshly created plain object `{}` whose values are sanitized
recursively; everything else is returned unchanged.  `for…in` over an
array yields its index keys `"0"`, `"1"`, …, so an array input comes back
as a plain object keyed by decimal index strings. -/

/-- The character class `[<>"']` removed by `sanitizeEventData`. -/
def eventXssChars : List Char := ['<', '>', '"', '\'']

mutual

/-- `sanitizeEventData` from the source. -/
def sanitizeEventData : JsValue → JsValue
  | JsValue.str s => JsValue.str (String.mk (removeChars eventXssChars s.toList))
  | JsValue.obj fields => JsValue.obj (sanitizeFields fields)
  | JsValue.arr elems => JsValue.obj (sanitizeElems 0 elems)
  | JsValue.num n => JsValue.num n
  | JsValue.boolean b => JsValue.boolean b
  | JsValue.null => JsValue.null
  | JsValue.undef => JsValue.undef

/-- The `for…in` copy loop of `sanitizeEventData` over an object's own
properties, in property order. -/
def sanitizeFields : List (String × JsValue) → List (String × JsValue)
  | [] => []
  | (k, v) :: rest => (k, sanitizeEventData v) :: sanitizeFields rest

/-- The `for…in` copy loop of `sanitizeEventData` over an array: the keys
enumerated are the decimal index strings. -/
def sanitizeElems (i : Nat) : List JsValue → List (String × JsValue)
  | [] => []
  | v :: rest => (toString i, sanitizeEventData v) :: sanitizeElems (i + 1) rest

end

/-- Shape test: is a value an array? -/
def JsValue.isArr : JsValue → Bool
  | JsValue.arr _ => true
  | _ => false

/-! ## The bridge state

`BridgeState` collects the mutable fields of the `BullhornBridge` class
that the claims observe, together with a trace of every message handed to
`postRobot.sendToParent` and of every locally emitted event.  The
post-robot module itself is modelled as always successfully loaded
(`initializePostRobot` failing is out of scope of every claim).  The
`registrationPromise` field holds `some o` when the class field is
non-null, where `o` is the (eventual) settled outcome of that promise:
awaiting the promise observes `o`, whether the await began while the
handshake was still in flight or after it settled. -/

/-- One call to `postRobot.sendToParent`: message name, payload, timeout,
and the `domain` option when the source passes one. -/
structure SentMsg where
  name : String
  payload : JsValue
  timeout : Nat
  domain : Option (List String)

/-- The observable state of one `BullhornBridge` instance. -/
structure BridgeState where
  /-- result of `isInIframe()` (`window.parent !== window`); fixed for the
  life of the page. -/
  inIframe : Bool
  /-- `this.isRegistered`. -/
  isRegistered : Bool
  /-- `this.registrationPromise`, as its settled outcome (see above). -/
  registrationPromise : Option (Except String Unit)
  /-- `this.registrationAttempts`. -/
  registrationAttempts : Nat
  /-- `this.allowedOrigins`. -/
  allowedOrigins : List String
  /-- `window.location.href`, used for the default registration url. -/
  locationHref : String
  /-- trace of every message sent via `postRobot.sendToParent`. -/
  sent : List SentMsg
  /-- trace of every locally emitted event (`this.emit`), as
  (event name, payload); an `Error` payload is modelled by its message. -/
  emitted : List (String × JsValue)
  /-- number of times `onReadyCallback` was invoked. -/
  readyCbCalls : Nat
  /-- number of times `onErrorCallback` was invoked. -/
  errorCbCalls : Nat
  /-- whether `setupEventListeners()` has subscribed the inbound channels. -/
  listenersSetup : Bool

/-- `this.maxRegistrationAttempts`. -/
def maxRegistrationAttempts : Nat := 4

/-- `this.waitTime` (fixed backoff, milliseconds). -/
def waitTime : Nat := 500

/-- `this.MAX_URL_LENGTH`. -/
def MAX_URL_LENGTH : Nat := 2000

/-- `this.MAX_PARAM_LENGTH`. -/
def MAX_PARAM_LENGTH : Nat := 500

/-- The error thrown after exhausting the registration attempt budget. -/
def regFailureMsg : String := "Failed to register with Bullhorn after maximum attempts"

/-- The `register(config?)` argument. -/
structure BullhornConfig where
  title : Option String
  url : Option String
  color : Option String

/-- JavaScript `v || d` for an optional string default (the empty string
is falsy and also falls back to the default). -/
def jsDefault (v : Option String) (d : String) : String :=
  match v with
  | none => d
  | some s => if s.isEmpty then d else s

/-- The `registrationConfig` object sent in the handshake, with its
defaulted fields. -/
def registrationPayload (config : Option BullhornConfig) (locationHref : String) : JsValue :=
  JsValue.obj
    [ ("title", JsValue.str (jsDefault (config.bind (·.title)) "Custom Integration")),
      ("url", JsValue.str (jsDefault (config.bind (·.url)) locationHref)),
      ("color", JsValue.str (jsDefault (config.bind (·.color)) "#0070c0")) ]

/-- The `sendToParent('register', …, \x7btimeout: 5000\x7d)` message of one
handshake attempt. -/
def registerMsg (config : Option BullhornConfig) (locationHref : String) : SentMsg :=
  { name := "register", payload := registrationPayload config locationHref,
    timeout := 5000, domain := none }

/-- Number of `register` messages in the sent trace so far; handshake
attempt outcomes are indexed by this count. -/
def registerSendCount (s : BridgeState) : Nat :=
  (s.sent.filter fun m => m.name == "register").length

/-- Outcome oracle for handshake attempts: `attemptReplies n` tells
whether the parent's reply to the `n`-th `register` message (counted from
0) arrives in time (`true`) or the send rejects/times out (`false`). -/
abbrev AttemptReplies := Nat → Bool

/-- `performRegistration` from the source: send one `register` message;
on success set `isRegistered`, subscribe the event listeners, invoke the
ready callback and emit `ready`; on failure either retry after the fixed
backoff while `registrationAttempts < maxRegistrationAttempts`
(incrementing the counter) or fail terminally, invoking the error
callback, emitting `error` and throwing. -/
def performRegistration (replies : AttemptReplies) (config : Option BullhornConfig)
    (s : BridgeState) : BridgeState × Except String Unit :=
  let n := registerSendCount s
  let s1 := { s with sent := s.sent ++ [registerMsg config s.locationHref] }
  if replies n then
    ({ s1 with isRegistered := true, listenersSetup := true,
               readyCbCalls := s1.readyCbCalls + 1,
               emitted := s1.emitted ++ [("ready", JsValue.undef)] },
     Except.ok ())
  else if h : s1.registrationAttempts < maxRegistrationAttempts then
    performRegistration replies config
      { s1 with registrationAttempts := s1.registrationAttempts + 1 }
  else
    ({ s1 with errorCbCalls := s1.errorCbCalls + 1,
               emitted := s1.emitted ++ [("error", JsValue.str regFailureMsg)] },
     Except.error regFailureMsg)
termination_by maxRegistrationAttempts - s.registrationAttempts
decreasing_by simp only [BridgeState.mk.injEq] at h ⊢; omega

/-- `register(config?)` from the source: not in an iframe ⇒ `false`
without side effects; already registered ⇒ `true`; an existing
registration promise ⇒ await it and return `isRegistered` (a rejected
promise rethrows); otherwise store a new promise running
`performRegistration` and await it. -/
def register (replies : AttemptReplies) (config : Option BullhornConfig)
    (s : BridgeState) : BridgeState × Except String Bool :=
  if !s.inIframe then (s, Except.ok false)
  else if s.isRegistered then (s, Except.ok true)
  else
    match s.registrationPromise with
    | some (Except.error e) => (s, Except.error e)
    | some (Except.ok _) => (s, Except.ok s.isRegistered)
    | none =>
        match performRegistration replies config s with
        | (s', Except.error e) =>
            ({ s' with registrationPromise := some (Except.error e) }, Except.error e)
        | (s', Except.ok _) =>
            let s'' := { s' with registrationPromise := some (Except.ok ()) }
            (s'', Except.ok s''.isRegistered)

/-- `isReady()` from the source. -/
def isReady (s : BridgeState) : Bool := s.isRegistered

/-- Number of events with the given name in the emission trace. -/
def emitCount (s : BridgeState) (name : String) : Nat :=
  (s.emitted.filter fun e => e.1 == name).length

/-- The synchronous prefix of `register()` (everything before its first
`await`), classifying what a caller does at the instant it runs. -/
inductive RegisterEntry where
  | notInIframe
  | alreadyRegistered
  | awaitExisting
  | startNew
deriving DecidableEq

/-- Which branch of `register()` a call takes, given the state at the
moment the call starts. -/
def registerEntry (s : BridgeState) : RegisterEntry :=
  if !s.inIframe then RegisterEntry.notInIframe
  else if s.isRegistered then RegisterEntry.alreadyRegistered
  else if s.registrationPromise.isSome then RegisterEntry.awaitExisting
  else RegisterEntry.startNew

/-- The part of `performRegistration` that runs before its first `await`:
building the payload and handing the single `register` message of the
attempt to the transport.  The caller then suspends awaiting the reply. -/
def performRegistrationFirstSend (config : Option BullhornConfig)
    (s : BridgeState) : BridgeState :=
  { s with sent := s.sent ++ [registerMsg config s.locationHref] }

/-- A batch of `register()` calls run one after the other on a session
(the event-loop serialization of concurrent callers), collecting each
caller's observed outcome. -/
def registerMany (calls : List (AttemptReplies × Option BullhornConfig))
    (s : BridgeState) : BridgeState × List (Except String Bool) :=
  match calls with
  | [] => (s, [])
  | c :: rest =>
      match register c.1 c.2 s with
      | (s1, r) =>
          match registerMany rest s1 with
          | (s2, rs) => (s2, r :: rs)

/-! ## The request gateway (`validateRelativeUrl` and the HTTP verbs) -/

/-- The fixed whitelist of allowed relative-URL path beginnings. -/
def allowedApiRoots : List String :=
  ["/entity/", "/query/", "/search/", "/meta/", "/services/", "/find/"]

/-- `validateRelativeUrl` from the source: reject on `..` or `//`
anywhere, on not starting with `/`, on length above `MAX_URL_LENGTH`, and
otherwise accept exactly when one whitelisted path beginning matches. -/
def validateRelativeUrl (url : String) : Bool :=
  if containsSub "..".toList url.toList || containsSub "//".toList url.toList then false
  else if !(strStartsWith url "/") then false
  else if url.length > MAX_URL_LENGTH then false
  else allowedApiRoots.any fun p => strStartsWith url p

/-- A post-robot reply object, `\x7bdata: …\x7d`; the HTTP verbs return its
`data` field. -/
structure TransportReply where
  data : JsValue

/-- How the transport answers one verb call: a reply object, or a
rejection/timeout (whose detail the source discards for HTTP verbs). -/
abbrev VerbReply := Except Unit TransportReply

/-- `ensureRegistered` from the source: throw when not in an iframe;
otherwise register first when not yet registered (a rejected registration
rethrows here), and finally throw when still unregistered. -/
def ensureRegistered (replies : AttemptReplies) (s : BridgeState) :
    BridgeState × Except String Unit :=
  if !s.inIframe then (s, Except.error "Not running in an iframe")
  else
    let step : BridgeState × Except String Bool :=
      if !s.isRegistered then register replies none s else (s, Except.ok true)
    match step with
    | (s1, Except.error e) => (s1, Except.error e)
    | (s1, Except.ok _) =>
        if !s1.isRegistered then (s1, Except.error "Failed to register with Bullhorn")
        else (s1, Except.ok ())

/-- Escape `"` and `\` in a JSON string body. -/
def jsonEscape : List Char → List Char
  | [] => []
  | c :: rest =>
      if c = '"' || c = '\\' then '\\' :: c :: jsonEscape rest
      else c :: jsonEscape rest

mutual

/-- JSON.stringify for `JsValue`, as used by the payload-size check of
`httpPOST`/`httpPUT`.  String escaping beyond `"` and `\` and the
dropping of `undefined` object members are not modelled; no claim
depends on the serialized text, only on the check happening after URL
validation. -/
def jsonStringify : JsValue → String
  | JsValue.str s => "\"" ++ String.mk (jsonEscape s.toList) ++ "\""
  | JsValue.num n => toString n
  | JsValue.boolean b => if b then "true" else "false"
  | JsValue.null => "null"
  | JsValue.undef => "null"
  | JsValue.obj fields => "\x7b" ++ jsonFields fields ++ "\x7d"
  | JsValue.arr elems => "[" ++ jsonElems elems ++ "]"

/-- Comma-separated serialized object members. -/
def jsonFields : List (String × JsValue) → String
  | [] => ""
  | [(k, v)] => "\"" ++ k ++ "\":" ++ jsonStringify v
  | (k, v) :: rest => "\"" ++ k ++ "\":" ++ jsonStringify v ++ "," ++ jsonFields rest

/-- Comma-separated serialized array elements. -/
def jsonElems : List JsValue → String
  | [] => ""
  | [v] => jsonStringify v
  | v :: rest => jsonStringify v ++ "," ++ jsonElems rest

end

/-- The 1 MiB payload bound of `httpPOST`/`httpPUT`. -/
def MAX_PAYLOAD_LENGTH : Nat := 1024 * 1024

/-- `httpGET` from the source: ensure registration, validate the relative
URL, send one `httpGET` message with payload `\x7brelativeURL\x7d`, a
10000 ms timeout and the allowed-origin domain filter, and return the
reply's `data` field; a transport failure is wrapped into a generic
error. -/
def httpGET (replies : AttemptReplies) (reply : VerbReply) (s : BridgeState)
    (relativeURL : String) : BridgeState × Except String JsValue :=
  match ensureRegistered replies s with
  | (s1, Except.error e) => (s1, Except.error e)
  | (s1, Except.ok _) =>
      if !validateRelativeUrl relativeURL then
        (s1, Except.error "Invalid or unauthorized URL")
      else
        let s2 := { s1 with sent := s1.sent ++
          [{ name := "httpGET",
             payload := JsValue.obj [("relativeURL", JsValue.str relativeURL)],
             timeout := 10000, domain := some s1.allowedOrigins }] }
        match reply with
        | Except.ok r => (s2, Except.ok r.data)
        | Except.error _ => (s2, Except.error "Failed to complete GET request")

/-- `httpPOST` from the source: like `httpGET` but with a body, a 1 MiB
serialized-size check after URL validation, and the message name and
wrapped error of the POST verb. -/
def httpPOST (replies : AttemptReplies) (reply : VerbReply) (s : BridgeState)
    (relativeURL : String) (data : JsValue) : BridgeState × Except String JsValue :=
  match ensureRegistered replies s with
  | (s1, Except.error e) => (s1, Except.error e)
  | (s1, Except.ok _) =>
      if !validateRelativeUrl relativeURL then
        (s1, Except.error "Invalid or unauthorized URL")
      else if (jsonStringify data).length > MAX_PAYLOAD_LENGTH then
        (s1, Except.error "Payload too large")
      else
        let s2 := { s1 with sent := s1.sent ++
          [{ name := "httpPOST",
             payload := JsValue.obj
               [("relativeURL", JsValue.str relativeURL), ("data", data)],
             timeout := 10000, domain := some s1.allowedOrigins }] }
        match reply with
        | Except.ok r => (s2, Except.ok r.data)
        | Except.error _ => (s2, Except.error "Failed to complete POST request")

/-- `httpPUT` from the source: same shape as `httpPOST` with the PUT
message name and wrapped error. -/
def httpPUT (replies : AttemptReplies) (reply : VerbReply) (s : BridgeState)
    (relativeURL : String) (data : JsValue) : BridgeState × Except String JsValue :=
  match ensureRegistered replies s with
  | (s1, Except.error e) => (s1, Except.error e)
  | (s1, Except.ok _) =>
      if !validateRelativeUrl relativeURL then
        (s1, Except.error "Invalid or unauthorized URL")
      else if (jsonStringify data).length > MAX_PAYLOAD_LENGTH then
        (s1, Except.error "Payload too large")
      else
        let s2 := { s1 with sent := s1.sent ++
          [{ name := "httpPUT",
             payload := JsValue.obj
               [("relativeURL", JsValue.str relativeURL), ("data", data)],
             timeout := 10000, domain := some s1.allowedOrigins }] }
        match reply with
        | Except.ok r => (s2, Except.ok r.data)
        | Except.error _ => (s2, Except.error "Failed to complete PUT request")

/-- `httpDELETE` from the source: same shape as `httpGET` with the DELETE
message name and wrapped error. -/
def httpDELETE (replies : AttemptReplies) (reply : VerbReply) (s : BridgeState)
    (relativeURL : String) : BridgeState × Except String JsValue :=
  match ensureRegistered replies s with
  | (s1, Except.error e) => (s1, Except.error e)
  | (s1, Except.ok _) =>
      if !validateRelativeUrl relativeURL then
        (s1, Except.error "Invalid or unauthorized URL")
      else
        let s2 := { s1 with sent := s1.sent ++
          [{ name := "httpDELETE",
             payload := JsValue.obj [("relativeURL", JsValue.str relativeURL)],
             timeout := 10000, domain := some s1.allowedOrigins }] }
        match reply with
        | Except.ok r => (s2, Except.ok r.data)
        | Except.error _ => (s2, Except.error "Failed to complete DELETE request")

/-! ## Credential extraction (`extractCredentialsFromUrl`) -/

/-- The five credential fields, each an optional validated string. -/
structure BullhornCredentials where
  corporationId : Option String
  privateLabelId : Option String
  userId : Option String
  restUrl : Option String
  restToken : Option String
deriving DecidableEq

/-- Query-string or fragment parameters, as decoded (name, value) pairs
in document order; `URLSearchParams.get` returns the first value for a
name, or null. -/
abbrev UrlParams := List (String × String)

/-- `URLSearchParams.get`. -/
def getParam (ps : UrlParams) (k : String) : Option String :=
  (ps.find? fun p => p.1 == k).map (·.2)

/-- The character class `[<>"'&]` removed by `validateParam`. -/
def paramXssChars : List Char := ['<', '>', '"', '\'', '&']

/-- `validateParam` from the source (at the default maximum length):
nothing for a missing/empty value or one over `MAX_PARAM_LENGTH`,
otherwise the value with `[<>"'&]` removed. -/
def validateParam (value : Option String) : Option String :=
  match value with
  | none => none
  | some v =>
      if v.isEmpty then none
      else if v.length > MAX_PARAM_LENGTH then none
      else some (String.mk (removeChars paramXssChars v.toList))

/-- One character of the token character class `[A-Za-z0-9\-_.~]`. -/
def tokenChar (c : Char) : Bool :=
  (('A' ≤ c && c ≤ 'Z') || ('a' ≤ c && c ≤ 'z') || ('0' ≤ c && c ≤ '9')
    || c == '-' || c == '_' || c == '.' || c == '~')

/-- `validateToken` from the source: the token unchanged when it is
non-empty, drawn from the restricted character class and within the
length bound; nothing otherwise. -/
def validateToken (value : Option String) : Option String :=
  match value with
  | none => none
  | some v =>
      if v.isEmpty then none
      else if !(v.toList.all tokenChar) || v.length > MAX_PARAM_LENGTH then none
      else some v

/-- `validateUrl` from the source.  It parses the value with `new URL`
and keeps it only when the protocol is `https:`; we model the accepted
set as absolute `https://` URLs with a non-empty remainder (the only
shape the claims exercise). -/
def validateUrl (value : Option String) : Option String :=
  match value with
  | none => none
  | some v =>
      if v.isEmpty then none
      else if strStartsWith v "https://" && v.length > 8 then some v
      else none

/-- JavaScript `key.toLowerCase()` for the ASCII key names it is applied
to. -/
def asciiLower (c : Char) : Char :=
  if 'A' ≤ c && c ≤ 'Z' then Char.ofNat (c.toNat + 32) else c

/-- Lowercase a key string (ASCII). -/
def lowerKey (k : String) : String := String.mk (k.toList.map asciiLower)

/-- The key strings of the credentials object, in the insertion order
`Object.keys` enumerates them. -/
def credKeys : List String :=
  ["corporationId", "privateLabelId", "userId", "restUrl", "restToken"]

/-- Read `this.credentials[key]`. -/
def getCredField (c : BullhornCredentials) (key : String) : Option String :=
  if key == "corporationId" then c.corporationId
  else if key == "privateLabelId" then c.privateLabelId
  else if key == "userId" then c.userId
  else if key == "restUrl" then c.restUrl
  else if key == "restToken" then c.restToken
  else none

/-- Write `this.credentials[key] = v`. -/
def setCredField (c : BullhornCredentials) (key : String) (v : Option String) :
    BullhornCredentials :=
  if key == "corporationId" then { c with corporationId := v }
  else if key == "privateLabelId" then { c with privateLabelId := v }
  else if key == "userId" then { c with userId := v }
  else if key == "restUrl" then { c with restUrl := v }
  else if key == "restToken" then { c with restToken := v }
  else c

/-- `extractCredentialsFromUrl` from the source: first resolve every
field from the query string (`corporationId`|`corp`,
`privateLabelId`|`plid`, `userId`|`uid`, `restUrl`,
`BhRestToken`|`restToken`, each through its validator), then walk
`Object.keys(this.credentials)` and, for every field the query left
falsy, consult the fragment under the field's own key name or its
all-lowercase spelling. -/
def extractCredentialsFromUrl (query hash : UrlParams) : BullhornCredentials :=
  let fromQuery : BullhornCredentials :=
    { corporationId :=
        validateParam (jsOrStr (getParam query "corporationId") (getParam query "corp")),
      privateLabelId :=
        validateParam (jsOrStr (getParam query "privateLabelId") (getParam query "plid")),
      userId :=
        validateParam (jsOrStr (getParam query "userId") (getParam query "uid")),
      restUrl := validateUrl (getParam query "restUrl"),
      restToken :=
        validateToken (jsOrStr (getParam query "BhRestToken") (getParam query "restToken")) }
  credKeys.foldl
    (fun cred key =>
      if jsFalsyStr (getCredField cred key) then
        let value := jsOrStr (getParam hash key) (getParam hash (lowerKey key))
        if key == "restUrl" then setCredField cred key (validateUrl value)
        else if key == "restToken" then setCredField cred key (validateToken value)
        else setCredField cred key (validateParam value)
      else cred)
    fromQuery

/-- Credential extraction as claim C8 words it: each field resolves under
its accepted parameter names from the query string first, and the
fragment is consulted — under the same accepted names — only for fields
the query left unset. -/
def claimExtractCredentials (query hash : UrlParams) : BullhornCredentials :=
  let pick2 (ps : UrlParams) (n1 n2 : String) : Option String :=
    jsOrStr (getParam ps n1) (getParam ps n2)
  let field2 (n1 n2 : String) (validator : Option String → Option String) : Option String :=
    let q := validator (pick2 query n1 n2)
    if jsFalsyStr q then validator (pick2 hash n1 n2) else q
  let field1 (n : String) (validator : Option String → Option String) : Option String :=
    let q := validator (getParam query n)
    if jsFalsyStr q then validator (getParam hash n) else q
  { corporationId := field2 "corporationId" "corp" validateParam,
    privateLabelId := field2 "privateLabelId" "plid" validateParam,
    userId := field2 "userId" "uid" validateParam,
    restUrl := field1 "restUrl" validateUrl,
    restToken := field2 "BhRestToken" "restToken" validateToken }

/-- Credential extraction as amended for claim C8: query-string
resolution is exactly as claimed (each field under its accepted names,
validated), but the fragment — consulted only for fields the query left
unset (JS-falsy) — is looked up under the canonical field name or its
all-lowercase spelling only; the aliases `corp`, `plid`, `uid` and the
name `BhRestToken` are honoured in the query string only. -/
def amendedExtractCredentials (query hash : UrlParams) : BullhornCredentials :=
  let hashVal (key : String) : Option String :=
    jsOrStr (getParam hash key) (getParam hash (lowerKey key))
  let corpQ := validateParam (jsOrStr (getParam query "corporationId") (getParam query "corp"))
  let plidQ := validateParam (jsOrStr (getParam query "privateLabelId") (getParam query "plid"))
  let uidQ := validateParam (jsOrStr (getParam query "userId") (getParam query "uid"))
  let restUrlQ := validateUrl (getParam query "restUrl")
  let tokenQ := validateToken (jsOrStr (getParam query "BhRestToken") (getParam query "restToken"))
  { corporationId :=
      if jsFalsyStr corpQ then validateParam (hashVal "corporationId") else corpQ,
    privateLabelId :=
      if jsFalsyStr plidQ then validateParam (hashVal "privateLabelId") else plidQ,
    userId :=
      if jsFalsyStr uidQ then validateParam (hashVal "userId") else uidQ,
    restUrl :=
      if jsFalsyStr restUrlQ then validateUrl (hashVal "restUrl") else restUrlQ,
    restToken :=
      if jsFalsyStr tokenQ then validateToken (hashVal "restToken") else tokenQ }

/-! ## The singleton accessor (`getBullhornBridge`) -/

/-- The recognized constructor options that are plain data (callbacks are
opaque; their presence does not affect the claims about the accessor). -/
structure CtorConfig where
  debug : Option Bool
  allowedOrigins : Option (List String)
deriving DecidableEq

/-- The constructed instance, as the configuration-derived fields the
constructor stores, tagged with a construction counter so that two
constructions are distinguishable even from equal configurations. -/
structure BridgeInstance where
  constructionIndex : Nat
  debug : Bool
  allowedOrigins : List String
deriving DecidableEq

/-- `new BullhornBridge(config)`, as far as its stored configuration is
concerned: `debug` defaults to false, `allowedOrigins` to the two
Bullhorn wildcard patterns. -/
def newBullhornBridge (idx : Nat) (config : Option CtorConfig) : BridgeInstance :=
  { constructionIndex := idx,
    debug := (config.bind (·.debug)).getD false,
    allowedOrigins := (config.bind (·.allowedOrigins)).getD defaultAllowedOrigins }

/-- The module-level mutable cell `defaultInstance`, plus a count of how
many constructions have happened. -/
structure SingletonState where
  defaultInstance : Option BridgeInstance
  constructions : Nat
deriving DecidableEq

/-- The module state before any call. -/
def initialSingletonState : SingletonState :=
  { defaultInstance := none, constructions := 0 }

/-- `getBullhornBridge(config?)` from the source: construct and cache an
instance on the first call, return the cached instance ever after. -/
def getBullhornBridge (g : SingletonState) (config : Option CtorConfig) :
    SingletonState × BridgeInstance :=
  match g.defaultInstance with
  | some inst => (g, inst)
  | none =>
      let inst := newBullhornBridge g.constructions config
      ({ defaultInstance := some inst, constructions := g.constructions + 1 }, inst)

/-- A batch of `getBullhornBridge` calls run in order, collecting each
returned instance. -/
def getBridgeMany (configs : List (Option CtorConfig)) (g : SingletonState) :
    SingletonState × List BridgeInstance :=
  match configs with
  | [] => (g, [])
  | c :: rest =>
      match getBullhornBridge g c with
      | (g1, b) =>
          match getBridgeMany rest g1 with
          | (g2, bs) => (g2, b :: bs)

/-- A fresh in-iframe session, as built by the constructor before any
call: used to instantiate the registration theorems. -/
def sampleState : BridgeState :=
  { inIframe := true, isRegistered := false, registrationPromise := none,
    registrationAttempts := 0, allowedOrigins := defaultAllowedOrigins,
    locationHref := "https://app.example.com/", sent := [], emitted := [],
    readyCbCalls := 0, errorCbCalls := 0, listenersSetup := false }

/-- A session right after a successful first-attempt registration. -/
def sampleRegistered : BridgeState :=
  { sampleState with isRegistered := true,
                     registrationPromise := some (Except.ok ()),
                     listenersSetup := true }

/-! ## Lemmas: the wildcard regex of `isAllowedOrigin` -/

theorem starReplace_eq_nil (ps : List Char) : starReplace ps = [] ↔ ps = [] := by
  cases ps with
  | nil => simp [starReplace]
  | cons c t =>
      by_cases hc : c = '*' <;> simp [starReplace, hc]

theorem starReplace_head_ne_star (ps : List Char) (d : Char) (rest : List Char)
    (h : starReplace ps = d :: rest) : d ≠ '*' := by
  cases ps with
  | nil => simp [starReplace] at h
  | cons c t =>
      by_cases hc : c = '*'
      · subst hc
        simp [starReplace] at h
        rcases h with ⟨h1, -⟩
        subst h1
        decide
      · simp [starReplace, hc] at h
        rcases h with ⟨h1, -⟩
        subst h1
        exact hc

theorem compileRegex_starReplace (p : List Char) :
    compileRegex (starReplace p) = directToks p := by
  induction p with
  | nil => rfl
  | cons c ps ih =>
      by_cases hc : c = '*'
      · subst hc
        have h1 : starReplace ('*' :: ps) = '.' :: '*' :: starReplace ps := by
          simp [starReplace]
        rw [h1]
        have h2 : compileRegex ('.' :: '*' :: starReplace ps)
            = RTok.star RAtom.anyChar :: compileRegex (starReplace ps) := by
          simp [compileRegex]
        rw [h2, ih]
        simp [directToks]
      · have h1 : starReplace (c :: ps) = c :: starReplace ps := by
          simp [starReplace, hc]
        rw [h1]
        have hdir : directToks (c :: ps)
            = RTok.once (if c = '.' then RAtom.anyChar else RAtom.lit c) :: directToks ps := by
          by_cases hd : c = '.' <;> simp [directToks, hc, hd]
        rw [hdir, ← ih]
        rcases hsr : starReplace ps with _ | ⟨d, rest⟩
        · simp [compileRegex]
        · have hdne : d ≠ '*' := starReplace_head_ne_star ps d rest hsr
          simp [compileRegex, hdne]

theorem starLoop_any_append (u : List Char) (k : List Char → Bool) (s : List Char)
    (h : k s = true) : starLoop RAtom.anyChar k (u ++ s) = true := by
  induction u with
  | nil =>
      cases s with
      | nil => simpa [starLoop] using h
      | cons d s' => simp [starLoop, h]
  | cons x u' ih => simp [starLoop, matchAtom, ih]

theorem matchToks_complete (p s : List Char) (h : PatMatch p s) :
    matchToks (directToks p) s = true := by
  induction h with
  | nil => simp [directToks, matchToks]
  | lit hne hnd _ ih => simp [directToks, hne, hnd, matchToks, matchAtom, ih]
  | dot d _ ih => simp [directToks, matchToks, matchAtom, ih]
  | star u _ ih =>
      simp only [directToks, if_pos rfl, matchToks]
      exact starLoop_any_append u _ _ ih

theorem patMatch_star_cons {ps s : List Char} (d : Char)
    (h : PatMatch ('*' :: ps) s) : PatMatch ('*' :: ps) (d :: s) := by
  cases h with
  | lit hne hnd hm => exact absurd rfl hne
  | star u hm => exact PatMatch.star (d :: u) hm

theorem matchToks_sound : ∀ n p s, p.length + s.length ≤ n →
    matchToks (directToks p) s = true → PatMatch p s := by
  intro n
  induction n with
  | zero =>
      intro p s hlen hm
      have hp : p = [] := by cases p <;> simp_all
      have hs : s = [] := by cases s <;> simp_all
      subst hp; subst hs
      exact PatMatch.nil
  | succ n ih =>
      intro p s hlen hm
      cases p with
      | nil =>
          cases s with
          | nil => exact PatMatch.nil
          | cons d s' => simp [directToks, matchToks] at hm
      | cons c ps =>
          by_cases hstar : c = '*'
          · subst hstar
            simp only [directToks, if_pos rfl, matchToks] at hm
            cases s with
            | nil =>
                have hm' : matchToks (directToks ps) [] = true := by
                  simpa [starLoop] using hm
                have hps := ih ps [] (by simp at hlen ⊢; omega) hm'
                simpa using PatMatch.star [] hps
            | cons d s' =>
                simp only [starLoop, matchAtom, Bool.true_and, Bool.or_eq_true] at hm
                cases hm with
                | inl h1 =>
                    have hps := ih ps (d :: s') (by simp at hlen ⊢; omega) h1
                    simpa using PatMatch.star [] hps
                | inr h2 =>
                    have h2' : matchToks (directToks ('*' :: ps)) s' = true := by
                      simpa [directToks, matchToks] using h2
                    exact patMatch_star_cons d
                      (ih ('*' :: ps) s' (by simp at hlen ⊢; omega) h2')
          · by_cases hdot : c = '.'
            · subst hdot
              cases s with
              | nil => simp [directToks, matchToks, hstar] at hm
              | cons d s' =>
                  have hm' : matchToks (directToks ps) s' = true := by
                    simpa [directToks, matchToks, matchAtom, hstar] using hm
                  exact PatMatch.dot d (ih ps s' (by simp at hlen ⊢; omega) hm')
            · cases s with
              | nil => simp [directToks, matchToks, hstar, hdot] at hm
              | cons d s' =>
                  have hm' : c = d ∧ matchToks (directToks ps) s' = true := by
                    simpa [directToks, matchToks, matchAtom, hstar, hdot] using hm
                  obtain ⟨rfl, hrest⟩ := hm'
                  exact PatMatch.lit hstar hdot (ih ps s' (by simp at hlen ⊢; omega) hrest)

theorem matchToks_iff_patMatch (p s : List Char) :
    matchToks (compileRegex (starReplace p)) s = true ↔ PatMatch p s := by
  rw [compileRegex_starReplace]
  exact ⟨matchToks_sound (p.length + s.length) p s le_rfl, matchToks_complete p s⟩

theorem patMatch_refl : ∀ p : List Char, PatMatch p p := by
  intro p
  induction p with
  | nil => exact PatMatch.nil
  | cons c ps ih =>
      by_cases hstar : c = '*'
      · subst hstar; simpa using PatMatch.star ['*'] ih
      · by_cases hdot : c = '.'
        · subst hdot; exact PatMatch.dot '.' ih
        · exact PatMatch.lit hstar hdot ih

/-- Claim C2 counterexample: on the constructor's default patterns the
code accepts the origin `https://ab.bullhornxcom` — the pattern's `.`
characters are regex metacharacters matching the `x` — while the claim's
semantics (every non-`*` pattern character matches only itself
literally) rejects it.  So `isAllowedOrigin` does not implement the
claimed relation. -/
theorem isAllowedOrigin_claim_counterexample :
    isAllowedOrigin defaultAllowedOrigins "https://ab.bullhornxcom" = true ∧
    claimAllowedOrigin defaultAllowedOrigins "https://ab.bullhornxcom" = false := by
  constructor <;> decide

/-- Claim C2 (amended): `isAllowedOrigin(origin)` returns true iff either
origin is character-for-character equal to one configured pattern, or the
pattern contains `*` and origin matches the pattern as a full-string
anchored match in which each `*` matches any substring, each `.` matches
any single character, and every other pattern character matches only
itself literally (`PatMatch`). -/
theorem isAllowedOrigin_characterization (allowedOrigins : List String) (origin : String) :
    isAllowedOrigin allowedOrigins origin = true ↔
      ∃ p ∈ allowedOrigins, origin = p ∨
        (hasStar p = true ∧ PatMatch p.toList origin.toList) := by
  unfold isAllowedOrigin
  rw [List.any_eq_true]
  constructor
  · rintro ⟨p, hp, hcond⟩
    refine ⟨p, hp, ?_⟩
    by_cases hs : hasStar p
    · exact Or.inr ⟨hs, (matchToks_iff_patMatch _ _).1 (by simpa [hs] using hcond)⟩
    · refine Or.inl ?_
      have : (origin == p) = true := by simpa [hs] using hcond
      exact eq_of_beq this
  · rintro ⟨p, hp, hcase⟩
    refine ⟨p, hp, ?_⟩
    by_cases hs : hasStar p
    · simp only [hs, if_true]
      rcases hcase with rfl | ⟨-, hm⟩
      · exact (matchToks_iff_patMatch _ _).2 (patMatch_refl _)
      · exact (matchToks_iff_patMatch _ _).2 hm
    · simp only [hs, Bool.false_eq_true, if_false]
      rcases hcase with rfl | ⟨hstar, -⟩
      · simp
      · simp [hs] at hstar

/-! ## Lemmas: `sanitizeEventData` -/

theorem removeChars_eq_filter (bad : List Char) (s : List Char) :
    removeChars bad s = s.filter fun c => !bad.contains c := by
  induction s with
  | nil => rfl
  | cons c rest ih =>
      by_cases hc : c ∈ bad <;> simp [removeChars, hc, ih, List.filter_cons]

theorem sanitizeFields_eq_map (fields : List (String × JsValue)) :
    sanitizeFields fields = fields.map fun kv => (kv.1, sanitizeEventData kv.2) := by
  induction fields with
  | nil => simp [sanitizeFields]
  | cons kv rest ih =>
      cases kv with
      | mk k v => simp [sanitizeFields, ih]

theorem sanitizeElems_eq_enumFrom :
    ∀ (i : Nat) (elems : List JsValue),
      sanitizeElems i elems
        = (List.enumFrom i (elems.map sanitizeEventData)).map
            fun p => (toString p.1, p.2) := by
  intro i elems
  induction elems generalizing i with
  | nil => simp [sanitizeElems]
  | cons v rest ih => simp [sanitizeElems, List.enumFrom, ih]

/-- Claim C9 counterexample: the sanitizer does not preserve array
structure — sanitizing an array yields a plain object (keyed by index
strings), not an array. -/
theorem sanitizeEventData_arr_counterexample :
    (sanitizeEventData (JsValue.arr [JsValue.num 1])).isArr = false := by
  simp [sanitizeEventData, JsValue.isArr]

/-- Claim C9 (amended): the sanitization is recursive; strings have the
markup-triggering characters `< > " '` removed; objects are sanitized
field-wise with the object structure preserved; arrays are sanitized
element-wise but come back as plain objects whose keys are the decimal
strings of the element indices (array structure is not preserved); and
values of any other type pass through unchanged. -/
theorem sanitizeEventData_spec :
    (∀ s, sanitizeEventData (JsValue.str s)
        = JsValue.str (String.mk (s.toList.filter fun c => !eventXssChars.contains c))) ∧
    (∀ fields, sanitizeEventData (JsValue.obj fields)
        = JsValue.obj (fields.map fun kv => (kv.1, sanitizeEventData kv.2))) ∧
    (∀ elems, sanitizeEventData (JsValue.arr elems)
        = JsValue.obj ((List.enumFrom 0 (elems.map sanitizeEventData)).map
            fun p => (toString p.1, p.2))) ∧
    (∀ n, sanitizeEventData (JsValue.num n) = JsValue.num n) ∧
    (∀ b, sanitizeEventData (JsValue.boolean b) = JsValue.boolean b) ∧
    (sanitizeEventData JsValue.null = JsValue.null) ∧
    (sanitizeEventData JsValue.undef = JsValue.undef) := by
  refine ⟨?_, ?_, ?_, ?_, ?_, ?_, ?_⟩
  · intro s; simp [sanitizeEventData, removeChars_eq_filter]
  · intro fields; simp [sanitizeEventData, sanitizeFields_eq_map]
  · intro elems; simp [sanitizeEventData, sanitizeElems_eq_enumFrom]
  · intro n; simp [sanitizeEventData]
  · intro b; simp [sanitizeEventData]
  · simp [sanitizeEventData]
  · simp [sanitizeEventData]

/-! ## Lemmas: the registration state machine -/

theorem regCount_append_register (l : List SentMsg)
    (cfg : Option BullhornConfig) (loc : String) :
    (((l ++ [registerMsg cfg loc]).filter fun m => m.name == "register")).length
      = ((l.filter fun m => m.name == "register")).length + 1 := by
  simp [List.filter_append, registerMsg]

theorem performRegistration_success (replies : AttemptReplies) (cfg : Option BullhornConfig) :
    ∀ (j : Nat) (s : BridgeState),
      (∀ i, i < j → replies (registerSendCount s + i) = false) →
      replies (registerSendCount s + j) = true →
      s.registrationAttempts + j ≤ maxRegistrationAttempts →
      performRegistration replies cfg s =
        ({ s with
            sent := s.sent ++ List.replicate (j + 1) (registerMsg cfg s.locationHref),
            registrationAttempts := s.registrationAttempts + j,
            isRegistered := true,
            listenersSetup := true,
            readyCbCalls := s.readyCbCalls + 1,
            emitted := s.emitted ++ [("ready", JsValue.undef)] },
         Except.ok ()) := by
  intro j
  induction j with
  | zero =>
      intro s hlt htrue hle
      rw [performRegistration]
      simp only [Nat.add_zero] at htrue
      simp [htrue]
  | succ j ih =>
      intro s hlt htrue hle
      have h0 : replies (registerSendCount s) = false := by
        simpa using hlt 0 (Nat.succ_pos j)
      have hcond : s.registrationAttempts < maxRegistrationAttempts := by omega
      rw [performRegistration]
      simp only [h0, Bool.false_eq_true, if_false, hcond, dif_pos]
      refine Eq.trans (ih _ ?_ ?_ ?_) ?_
      · intro i hi
        have := hlt (i + 1) (by omega)
        simpa [registerSendCount, registerMsg, List.filter_append, List.filter_cons,
          Nat.add_assoc, Nat.add_comm, Nat.add_left_comm] using this
      · simpa [registerSendCount, registerMsg, List.filter_append, List.filter_cons,
          Nat.add_assoc, Nat.add_comm, Nat.add_left_comm] using htrue
      · show s.registrationAttempts + 1 + j ≤ maxRegistrationAttempts
        omega
      · simp [List.replicate_succ, List.append_assoc] <;> omega

theorem performRegistration_allFail (replies : AttemptReplies)
    (cfg : Option BullhornConfig) (hall : ∀ n, replies n = false) :
    ∀ (k : Nat) (s : BridgeState),
      maxRegistrationAttempts - s.registrationAttempts = k →
      s.registrationAttempts ≤ maxRegistrationAttempts →
      performRegistration replies cfg s =
        ({ s with
            sent := s.sent ++ List.replicate (k + 1) (registerMsg cfg s.locationHref),
            registrationAttempts := maxRegistrationAttempts,
            errorCbCalls := s.errorCbCalls + 1,
            emitted := s.emitted ++ [("error", JsValue.str regFailureMsg)] },
         Except.error regFailureMsg) := by
  intro k
  induction k with
  | zero =>
      intro s hk hle
      have ha : s.registrationAttempts = maxRegistrationAttempts := by omega
      rw [performRegistration]
      simp [hall, ha]
  | succ k ih =>
      intro s hk hle
      have hcond : s.registrationAttempts < maxRegistrationAttempts := by omega
      rw [performRegistration]
      simp only [hall, Bool.false_eq_true, if_false, hcond, dif_pos]
      refine Eq.trans (ih _ ?_ ?_) ?_
      · show maxRegistrationAttempts - (s.registrationAttempts + 1) = k
        omega
      · show s.registrationAttempts + 1 ≤ maxRegistrationAttempts
        omega
      · simp [List.replicate_succ, List.append_assoc]

theorem register_await_existing (replies : AttemptReplies) (cfg : Option BullhornConfig)
    (s : BridgeState) (o : Except String Unit)
    (hif : s.inIframe = true) (hreg : s.isRegistered = false)
    (hp : s.registrationPromise = some o) :
    register replies cfg s =
      (s, match o with
          | Except.error e => Except.error e
          | Except.ok _ => Except.ok s.isRegistered) := by
  unfold register
  cases o with
  | error e => simp [hif, hreg, hp]
  | ok u => cases u; simp [hif, hreg, hp]

theorem registerMany_await_existing (s : BridgeState) (o : Except String Unit)
    (hif : s.inIframe = true) (hreg : s.isRegistered = false)
    (hp : s.registrationPromise = some o) :
    ∀ calls, (registerMany calls s).1 = s ∧
      ∀ r ∈ (registerMany calls s).2,
        r = match o with
            | Except.error e => Except.error e
            | Except.ok _ => Except.ok s.isRegistered := by
  intro calls
  induction calls with
  | nil => simp [registerMany]
  | cons c rest ih =>
      rw [registerMany, register_await_existing c.1 c.2 s o hif hreg hp]
      dsimp only
      rcases hmany : registerMany rest s with ⟨s2, rs⟩
      dsimp only
      obtain ⟨h1, h2⟩ := ih
      rw [hmany] at h1 h2
      dsimp only at h1 h2
      subst h1
      refine ⟨rfl, ?_⟩
      intro r hr
      rcases List.mem_cons.mp hr with rfl | hr
      · rfl
      · exact h2 r hr

theorem register_allFail_eq (replies : AttemptReplies) (cfg : Option BullhornConfig)
    (s : BridgeState) (hall : ∀ n, replies n = false)
    (hif : s.inIframe = true) (hreg : s.isRegistered = false)
    (hp : s.registrationPromise = none)
    (hatt : s.registrationAttempts ≤ maxRegistrationAttempts) :
    register replies cfg s =
      ({ s with
          sent := s.sent ++ List.replicate
            (maxRegistrationAttempts - s.registrationAttempts + 1)
            (registerMsg cfg s.locationHref),
          registrationAttempts := maxRegistrationAttempts,
          errorCbCalls := s.errorCbCalls + 1,
          emitted := s.emitted ++ [("error", JsValue.str regFailureMsg)],
          registrationPromise := some (Except.error regFailureMsg) },
       Except.error regFailureMsg) := by
  have hperf := performRegistration_allFail replies cfg hall
    (maxRegistrationAttempts - s.registrationAttempts) s rfl hatt
  unfold register
  simp only [hif, hreg, hp, Bool.not_true, Bool.false_eq_true, if_false]
  rw [hperf]
  simp [hif, hreg]

/-- Claim C1: single-flight registration.  From an in-iframe,
not-yet-registered session, a handshake attempt hands exactly one
`register` message to the transport before suspending
(`performRegistrationFirstSend`).  During the in-flight window — the
session `sW` whose pending promise will settle with outcome `o` — any
number of further `register()` calls leave the session (in particular its
sent-message trace) completely unchanged, so no further transport
handshake message is sent, and all of those callers observe one and the
same resolved outcome, which is the shared error when the attempt
fails. -/
theorem register_single_flight (s0 : BridgeState) (cfg : Option BullhornConfig)
    (o : Except String Unit) (calls : List (AttemptReplies × Option BullhornConfig))
    (hif : s0.inIframe = true) (hreg : s0.isRegistered = false) :
    registerSendCount { performRegistrationFirstSend cfg s0 with
        registrationPromise := some o } = registerSendCount s0 + 1 ∧
    (registerMany calls { performRegistrationFirstSend cfg s0 with
        registrationPromise := some o }).1
      = { performRegistrationFirstSend cfg s0 with registrationPromise := some o } ∧
    (∀ r ∈ (registerMany calls { performRegistrationFirstSend cfg s0 with
        registrationPromise := some o }).2,
      ∀ r' ∈ (registerMany calls { performRegistrationFirstSend cfg s0 with
        registrationPromise := some o }).2, r = r') ∧
    (∀ e, o = Except.error e →
      ∀ r ∈ (registerMany calls { performRegistrationFirstSend cfg s0 with
        registrationPromise := some o }).2, r = Except.error e) := by
  have hWif : ({ performRegistrationFirstSend cfg s0 with
      registrationPromise := some o } : BridgeState).inIframe = true := by
    simpa [performRegistrationFirstSend] using hif
  have hWreg : ({ performRegistrationFirstSend cfg s0 with
      registrationPromise := some o } : BridgeState).isRegistered = false := by
    simpa [performRegistrationFirstSend] using hreg
  have hWp : ({ performRegistrationFirstSend cfg s0 with
      registrationPromise := some o } : BridgeState).registrationPromise = some o := rfl
  obtain ⟨h1, h2⟩ := registerMany_await_existing _ o hWif hWreg hWp calls
  refine ⟨?_, h1, ?_, ?_⟩
  · simp [performRegistrationFirstSend, registerSendCount, List.filter_append,
      registerMsg, List.filter_cons]
  · intro r hr r' hr'
    rw [h2 r hr, h2 r' hr']
  · intro e he r hr
    subst he
    simpa using h2 r hr

/-- Claim C4: when every handshake attempt fails up to the retry bound,
`register()` ends in a terminal failure: the call rejects with the
terminal error, the error callback is invoked exactly once, the `error`
event is emitted exactly once, the session does not become REGISTERED
(`isReady` stays false), the stored registration promise settles with
that same error, and every caller awaiting that registration observes the
same rejection. -/
theorem register_terminal_failure (replies : AttemptReplies) (cfg : Option BullhornConfig)
    (s : BridgeState) (hall : ∀ n, replies n = false)
    (hif : s.inIframe = true) (hreg : s.isRegistered = false)
    (hp : s.registrationPromise = none)
    (hatt : s.registrationAttempts ≤ maxRegistrationAttempts) :
    (register replies cfg s).2 = Except.error regFailureMsg ∧
    (register replies cfg s).1.errorCbCalls = s.errorCbCalls + 1 ∧
    (register replies cfg s).1.emitted
      = s.emitted ++ [("error", JsValue.str regFailureMsg)] ∧
    isReady (register replies cfg s).1 = false ∧
    (register replies cfg s).1.registrationPromise
      = some (Except.error regFailureMsg) ∧
    ∀ calls, (registerMany calls (register replies cfg s).1).1
        = (register replies cfg s).1 ∧
      ∀ r ∈ (registerMany calls (register replies cfg s).1).2,
        r = Except.error regFailureMsg := by
  have heq := register_allFail_eq replies cfg s hall hif hreg hp hatt
  have hif2 : (register replies cfg s).1.inIframe = true := by rw [heq]; exact hif
  have hreg2 : (register replies cfg s).1.isRegistered = false := by rw [heq]; exact hreg
  have hp2 : (register replies cfg s).1.registrationPromise
      = some (Except.error regFailureMsg) := by rw [heq]
  refine ⟨by rw [heq], by rw [heq], by rw [heq], by rw [heq]; exact hreg, hp2, ?_⟩
  intro calls
  obtain ⟨ha, hb⟩ := registerMany_await_existing ((register replies cfg s).1)
    (Except.error regFailureMsg) hif2 hreg2 hp2 calls
  exact ⟨ha, fun r hr => hb r hr⟩

/-- Claim C5: with a transport that rejects the first three handshake
attempts and accepts the fourth, a single `register()` call on a fresh
in-iframe session resolves with overall success (`true`), exactly 4
`register` transport messages are sent in total, and the session becomes
registered. -/
theorem register_fourth_attempt_succeeds (replies : AttemptReplies)
    (cfg : Option BullhornConfig) (s : BridgeState)
    (hif : s.inIframe = true) (hreg : s.isRegistered = false)
    (hp : s.registrationPromise = none) (hatt : s.registrationAttempts = 0)
    (hsent : s.sent = [])
    (h0 : replies 0 = false) (h1 : replies 1 = false) (h2 : replies 2 = false)
    (h3 : replies 3 = true) :
    (register replies cfg s).2 = Except.ok true ∧
    registerSendCount (register replies cfg s).1 = 4 ∧
    (register replies cfg s).1.isRegistered = true := by
  have hsc : registerSendCount s = 0 := by simp [registerSendCount, hsent]
  have hperf := performRegistration_success replies cfg 3 s
    (by intro i hi
        interval_cases i
        · simpa [hsc] using h0
        · simpa [hsc] using h1
        · simpa [hsc] using h2)
    (by simpa [hsc] using h3)
    (by rw [hatt]; norm_num [maxRegistrationAttempts])
  unfold register
  simp only [hif, hreg, hp, Bool.not_true, Bool.false_eq_true, if_false]
  rw [hperf]
  refine ⟨rfl, ?_, rfl⟩
  simp [registerSendCount, hsent, registerMsg, List.replicate_succ, List.filter_cons]

/-- Claim C7: the registration attempt budget is per-session and never
reset.  Once a session's registration has terminally failed (every
attempt of the first call rejected), every subsequent `register()` call —
with any transport behaviour and any config — fails with the stored
terminal error, leaves the session unchanged, and sends no new `register`
transport message. -/
theorem register_exhausted_budget (replies replies2 : AttemptReplies)
    (cfg cfg2 : Option BullhornConfig) (s : BridgeState)
    (hall : ∀ n, replies n = false)
    (hif : s.inIframe = true) (hreg : s.isRegistered = false)
    (hp : s.registrationPromise = none)
    (hatt : s.registrationAttempts ≤ maxRegistrationAttempts) :
    (register replies cfg s).2 = Except.error regFailureMsg ∧
    register replies2 cfg2 (register replies cfg s).1
      = ((register replies cfg s).1, Except.error regFailureMsg) ∧
    registerSendCount (register replies2 cfg2 (register replies cfg s).1).1
      = registerSendCount (register replies cfg s).1 := by
  have heq := register_allFail_eq replies cfg s hall hif hreg hp hatt
  have hif2 : (register replies cfg s).1.inIframe = true := by rw [heq]; exact hif
  have hreg2 : (register replies cfg s).1.isRegistered = false := by rw [heq]; exact hreg
  have hp2 : (register replies cfg s).1.registrationPromise
      = some (Except.error regFailureMsg) := by rw [heq]
  have hjoin := register_await_existing replies2 cfg2 ((register replies cfg s).1)
    (Except.error regFailureMsg) hif2 hreg2 hp2
  refine ⟨by rw [heq], hjoin, by rw [hjoin]⟩

/-! ## Lemmas: the request gateway -/

theorem validateRelativeUrl_eq_false_iff (url : String) :
    validateRelativeUrl url = false ↔
      (strStartsWith url "/" = false ∨
       containsSub "..".toList url.toList = true ∨
       containsSub "//".toList url.toList = true ∨
       MAX_URL_LENGTH < url.length ∨
       ∀ p ∈ allowedApiRoots, strStartsWith url p = false) := by
  unfold validateRelativeUrl
  cases h1 : containsSub "..".toList url.toList with
  | true => exact iff_of_true rfl (Or.inr (Or.inl rfl))
  | false =>
      cases h2 : containsSub "//".toList url.toList with
      | true => exact iff_of_true rfl (Or.inr (Or.inr (Or.inl rfl)))
      | false =>
          simp only [Bool.or_self, Bool.false_eq_true, if_false]
          cases h3 : strStartsWith url "/" with
          | false => exact iff_of_true rfl (Or.inl rfl)
          | true =>
              simp only [Bool.not_true, Bool.false_eq_true, if_false]
              by_cases h4 : url.length > MAX_URL_LENGTH
              · rw [if_pos h4]
                exact iff_of_true rfl (Or.inr (Or.inr (Or.inr (Or.inl h4))))
              · rw [if_neg h4]
                constructor
                · intro h
                  refine Or.inr (Or.inr (Or.inr (Or.inr ?_)))
                  intro p hp
                  have := List.any_eq_false.mp h p hp
                  exact Bool.not_eq_true _ ▸ this
                · intro h
                  rcases h with h | h | h | h | h
                  · exact Bool.noConfusion h
                  · exact h.elim
                  · exact h.elim
                  · exact absurd h h4
                  · rw [List.any_eq_false]
                    intro p hp
                    rw [h p hp]
                    exact fun hx => Bool.noConfusion hx

theorem performRegistration_sent_extra (replies : AttemptReplies)
    (cfg : Option BullhornConfig) :
    ∀ (k : Nat) (s : BridgeState),
      maxRegistrationAttempts - s.registrationAttempts = k →
      ∃ extra, (performRegistration replies cfg s).1.sent = s.sent ++ extra ∧
        ∀ m ∈ extra, m.name = "register" := by
  intro k
  induction k with
  | zero =>
      intro s hk
      rw [performRegistration]
      cases hr : replies (registerSendCount s)
      · have hcond : ¬ s.registrationAttempts < maxRegistrationAttempts := by omega
        simp only [hr, Bool.false_eq_true, if_false, hcond, dif_neg]
        exact ⟨[registerMsg cfg s.locationHref], rfl, by simp [registerMsg]⟩
      · simp only [hr, if_true]
        exact ⟨[registerMsg cfg s.locationHref], rfl, by simp [registerMsg]⟩
  | succ k ih =>
      intro s hk
      rw [performRegistration]
      cases hr : replies (registerSendCount s)
      · have hcond : s.registrationAttempts < maxRegistrationAttempts := by omega
        simp only [hr, Bool.false_eq_true, if_false, hcond, dif_pos]
        obtain ⟨extra, he, hn⟩ := ih
          { s with sent := s.sent ++ [registerMsg cfg s.locationHref],
                   registrationAttempts := s.registrationAttempts + 1 }
          (by show maxRegistrationAttempts - (s.registrationAttempts + 1) = k; omega)
        refine ⟨registerMsg cfg s.locationHref :: extra, ?_, ?_⟩
        · rw [he]
          simp [List.append_assoc]
        · intro m hm
          rcases List.mem_cons.mp hm with rfl | hm
          · rfl
          · exact hn m hm
      · simp only [hr, if_true]
        exact ⟨[registerMsg cfg s.locationHref], rfl, by simp [registerMsg]⟩

theorem register_sent_extra (replies : AttemptReplies) (cfg : Option BullhornConfig)
    (s : BridgeState) :
    ∃ extra, (register replies cfg s).1.sent = s.sent ++ extra ∧
      ∀ m ∈ extra, m.name = "register" := by
  unfold register
  cases hif : s.inIframe with
  | false => exact ⟨[], by simp [hif], by simp⟩
  | true =>
      cases hreg : s.isRegistered with
      | true => exact ⟨[], by simp [hif, hreg], by simp⟩
      | false =>
          cases hp : s.registrationPromise with
          | some o =>
              cases o with
              | error e => exact ⟨[], by simp [hif, hreg, hp], by simp⟩
              | ok u => cases u; exact ⟨[], by simp [hif, hreg, hp], by simp⟩
          | none =>
              simp only [hif, hreg, hp, Bool.not_true, Bool.false_eq_true, if_false]
              obtain ⟨extra, he, hn⟩ := performRegistration_sent_extra replies cfg
                (maxRegistrationAttempts - s.registrationAttempts) s rfl
              rcases hperf : performRegistration replies cfg s with ⟨s', r⟩
              rw [hperf] at he
              cases r with
              | error e => exact ⟨extra, by simpa using he, hn⟩
              | ok u => exact ⟨extra, by simpa using he, hn⟩

theorem ensureRegistered_sent_extra (replies : AttemptReplies) (s : BridgeState) :
    ∃ extra, (ensureRegistered replies s).1.sent = s.sent ++ extra ∧
      ∀ m ∈ extra, m.name = "register" := by
  unfold ensureRegistered
  cases hif : s.inIframe with
  | false => exact ⟨[], by simp [hif], by simp⟩
  | true =>
      cases hreg : s.isRegistered with
      | true => exact ⟨[], by simp [hif, hreg], by simp⟩
      | false =>
          simp only [hif, hreg, Bool.not_true, Bool.not_false, if_true, Bool.false_eq_true,
            if_false]
          obtain ⟨extra, he, hn⟩ := register_sent_extra replies none s
          rcases hr : register replies none s with ⟨s1, r⟩
          rw [hr] at he
          cases r with
          | error e => exact ⟨extra, by simpa using he, hn⟩
          | ok b =>
              refine ⟨extra, ?_, hn⟩
              by_cases h1 : s1.isRegistered <;> simpa [h1] using he

theorem filter_name_of_register_extra (l extra : List SentMsg) (nm : String)
    (hnm : ¬ nm = "register") (hx : ∀ m ∈ extra, m.name = "register") :
    (l ++ extra).filter (fun m => m.name == nm) = l.filter fun m => m.name == nm := by
  rw [List.filter_append]
  have hz : extra.filter (fun m => m.name == nm) = [] := by
    rw [List.filter_eq_nil_iff]
    intro m hm
    simp only [hx m hm, beq_iff_eq]
    exact fun h => hnm h.symm
  rw [hz, List.append_nil]

/-- Claim C3: for every URL-bearing call (`httpGET`, `httpPOST`,
`httpPUT`, `httpDELETE`) whose relative URL does not start with `/`, or
contains `..`, or contains `//`, or is longer than 2000 characters, or
does not start with one of the six whitelisted path beginnings, the call
fails — on a session past the registration gate it fails with exactly the
`Invalid or unauthorized URL` error and touches no state — and in every
case no message named after an HTTP verb (indeed no message other than
registration handshakes) is ever handed to the transport for that
call. -/
theorem httpVerbs_invalid_url (replies : AttemptReplies) (reply : VerbReply)
    (s : BridgeState) (url : String) (body : JsValue)
    (hbad : strStartsWith url "/" = false ∨
            containsSub "..".toList url.toList = true ∨
            containsSub "//".toList url.toList = true ∨
            MAX_URL_LENGTH < url.length ∨
            ∀ p ∈ allowedApiRoots, strStartsWith url p = false) :
    (s.inIframe = true → s.isRegistered = true →
       httpGET replies reply s url = (s, Except.error "Invalid or unauthorized URL") ∧
       httpPOST replies reply s url body
         = (s, Except.error "Invalid or unauthorized URL") ∧
       httpPUT replies reply s url body
         = (s, Except.error "Invalid or unauthorized URL") ∧
       httpDELETE replies reply s url
         = (s, Except.error "Invalid or unauthorized URL")) ∧
    (∀ nm, ¬ nm = "register" →
       ((httpGET replies reply s url).1.sent.filter (fun m => m.name == nm)
           = s.sent.filter (fun m => m.name == nm)) ∧
       ((httpPOST replies reply s url body).1.sent.filter (fun m => m.name == nm)
           = s.sent.filter (fun m => m.name == nm)) ∧
       ((httpPUT replies reply s url body).1.sent.filter (fun m => m.name == nm)
           = s.sent.filter (fun m => m.name == nm)) ∧
       ((httpDELETE replies reply s url).1.sent.filter (fun m => m.name == nm)
           = s.sent.filter (fun m => m.name == nm))) := by
  have hval : validateRelativeUrl url = false := (validateRelativeUrl_eq_false_iff url).2 hbad
  constructor
  · intro hif hreg
    have hens : ensureRegistered replies s = (s, Except.ok ()) := by
      unfold ensureRegistered
      simp [hif, hreg]
    refine ⟨?_, ?_, ?_, ?_⟩
    · unfold httpGET
      rw [hens]
      simp [hval]
    · unfold httpPOST
      rw [hens]
      simp [hval]
    · unfold httpPUT
      rw [hens]
      simp [hval]
    · unfold httpDELETE
      rw [hens]
      simp [hval]
  · intro nm hnm
    obtain ⟨extra, he, hn⟩ := ensureRegistered_sent_extra replies s
    have hG : (httpGET replies reply s url).1.sent = s.sent ++ extra := by
      unfold httpGET
      rcases hr : ensureRegistered replies s with ⟨s1, r⟩
      rw [hr] at he
      cases r with
      | error e => simpa using he
      | ok u => simpa [hval] using he
    have hP : (httpPOST replies reply s url body).1.sent = s.sent ++ extra := by
      unfold httpPOST
      rcases hr : ensureRegistered replies s with ⟨s1, r⟩
      rw [hr] at he
      cases r with
      | error e => simpa using he
      | ok u => simpa [hval] using he
    have hU : (httpPUT replies reply s url body).1.sent = s.sent ++ extra := by
      unfold httpPUT
      rcases hr : ensureRegistered replies s with ⟨s1, r⟩
      rw [hr] at he
      cases r with
      | error e => simpa using he
      | ok u => simpa [hval] using he
    have hD : (httpDELETE replies reply s url).1.sent = s.sent ++ extra := by
      unfold httpDELETE
      rcases hr : ensureRegistered replies s with ⟨s1, r⟩
      rw [hr] at he
      cases r with
      | error e => simpa using he
      | ok u => simpa [hval] using he
    exact ⟨by rw [hG]; exact filter_name_of_register_extra _ _ _ hnm hn,
           by rw [hP]; exact filter_name_of_register_extra _ _ _ hnm hn,
           by rw [hU]; exact filter_name_of_register_extra _ _ _ hnm hn,
           by rw [hD]; exact filter_name_of_register_extra _ _ _ hnm hn⟩

/-- Claim C6: after a successful registration, `httpGET` on
`/entity/Candidate/123` sends exactly one transport message, named
`httpGET`, with payload `\x7brelativeURL: '/entity/Candidate/123'\x7d` and a
10000 ms timeout (and the allowed-origin domain filter), and resolves
with the unwrapped reply payload — the reply's `data` field — wrapping a
transport failure into the generic GET error. -/
theorem httpGET_after_registration (replies : AttemptReplies) (reply : VerbReply)
    (s : BridgeState) (hif : s.inIframe = true) (hreg : s.isRegistered = true) :
    httpGET replies reply s "/entity/Candidate/123"
      = ({ s with sent := s.sent ++
            [{ name := "httpGET",
               payload := JsValue.obj
                 [("relativeURL", JsValue.str "/entity/Candidate/123")],
               timeout := 10000, domain := some s.allowedOrigins }] },
         match reply with
         | Except.ok r => Except.ok r.data
         | Except.error _ => Except.error "Failed to complete GET request") := by
  have hens : ensureRegistered replies s = (s, Except.ok ()) := by
    unfold ensureRegistered
    simp [hif, hreg]
  have hurl : validateRelativeUrl "/entity/Candidate/123" = true := by decide
  unfold httpGET
  rw [hens]
  simp only [hurl, Bool.not_true, Bool.false_eq_true, if_false]
  cases reply <;> rfl

/-! ## Lemmas: credential extraction and the singleton accessor -/

/-- Claim C8 counterexample: with an empty query string and the fragment
`corp=123`, the code leaves `corporationId` unset — the alias `corp` is
not consulted in the fragment — while the claimed resolution (every
accepted name resolvable from either the query string or the fragment)
would set it to `123`. -/
theorem extractCredentials_claim_counterexample :
    extractCredentialsFromUrl [] [("corp", "123")]
      ≠ claimExtractCredentials [] [("corp", "123")] := by decide

/-- Claim C8 (amended): credential extraction resolves each field from
the query string under its accepted parameter names (`corporationId`|
`corp`, `privateLabelId`|`plid`, `userId`|`uid`, `restUrl`,
`BhRestToken`|`restToken`), each through its validator; the fragment is
consulted only for fields the query string left unset (JS-falsy), and
only under the canonical field name or its all-lowercase spelling — the
aliases `corp`, `plid`, `uid` and the name `BhRestToken` are honoured in
the query string only. -/
theorem extractCredentials_characterization (query hash : UrlParams) :
    extractCredentialsFromUrl query hash = amendedExtractCredentials query hash := by
  unfold extractCredentialsFromUrl amendedExtractCredentials credKeys
  simp only [List.foldl_cons, List.foldl_nil]
  by_cases h1 : jsFalsyStr (validateParam
      (jsOrStr (getParam query "corporationId") (getParam query "corp"))) = true <;>
  by_cases h2 : jsFalsyStr (validateParam
      (jsOrStr (getParam query "privateLabelId") (getParam query "plid"))) = true <;>
  by_cases h3 : jsFalsyStr (validateParam
      (jsOrStr (getParam query "userId") (getParam query "uid"))) = true <;>
  by_cases h4 : jsFalsyStr (validateUrl (getParam query "restUrl")) = true <;>
  by_cases h5 : jsFalsyStr (validateToken
      (jsOrStr (getParam query "BhRestToken") (getParam query "restToken"))) = true <;>
    simp [getCredField, setCredField, h1, h2, h3, h4, h5]

theorem getBridgeMany_cached (g : SingletonState) (inst : BridgeInstance)
    (h : g.defaultInstance = some inst) :
    ∀ configs, (getBridgeMany configs g).1 = g ∧
      ∀ b ∈ (getBridgeMany configs g).2, b = inst := by
  intro configs
  induction configs with
  | nil => simp [getBridgeMany]
  | cons c rest ih =>
      have hone : getBullhornBridge g c = (g, inst) := by
        unfold getBullhornBridge
        rw [h]
      rw [getBridgeMany, hone]
      dsimp only
      rcases hmany : getBridgeMany rest g with ⟨g2, bs⟩
      dsimp only
      obtain ⟨h1, h2⟩ := ih
      rw [hmany] at h1 h2
      dsimp only at h1 h2
      subst h1
      refine ⟨rfl, ?_⟩
      intro b hb
      rcases List.mem_cons.mp hb with rfl | hb
      · rfl
      · exact h2 b hb

/-- Claim C10: the singleton accessor constructs an instance on the first
call (from the first call's configuration) and returns that very same
cached instance on every later call — the module state is left untouched,
only one construction ever happens, and the configuration arguments of
all later calls are silently ignored. -/
theorem getBullhornBridge_singleton (cfg1 : Option CtorConfig)
    (rest : List (Option CtorConfig)) :
    (getBullhornBridge initialSingletonState cfg1).2 = newBullhornBridge 0 cfg1 ∧
    (getBullhornBridge initialSingletonState cfg1).1.constructions = 1 ∧
    (getBridgeMany rest (getBullhornBridge initialSingletonState cfg1).1).1
        = (getBullhornBridge initialSingletonState cfg1).1 ∧
    ∀ b ∈ (getBridgeMany rest (getBullhornBridge initialSingletonState cfg1).1).2,
      b = (getBullhornBridge initialSingletonState cfg1).2 := by
  have h1 : getBullhornBridge initialSingletonState cfg1
      = ({ defaultInstance := some (newBullhornBridge 0 cfg1), constructions := 1 },
         newBullhornBridge 0 cfg1) := rfl
  obtain ⟨ha, hb⟩ := getBridgeMany_cached (getBullhornBridge initialSingletonState cfg1).1
    (newBullhornBridge 0 cfg1) (by rw [h1]) rest
  refine ⟨by rw [h1], by rw [h1], ha, ?_⟩
  intro b hbm
  rw [hb b hbm, h1]

/-! ## Witnesses: the theorems with hypotheses, at concrete inputs -/

/-- Witness for C1: the single-flight property at a concrete fresh
session, a failing in-flight attempt and two concurrent callers. -/
theorem register_single_flight_witness :
    sampleState.inIframe = true ∧ sampleState.isRegistered = false ∧
    (registerSendCount { performRegistrationFirstSend none sampleState with
        registrationPromise := some (Except.error "handshake failed") }
      = registerSendCount sampleState + 1 ∧
    (registerMany [(fun _ => false, none), (fun _ => false, none)]
        { performRegistrationFirstSend none sampleState with
          registrationPromise := some (Except.error "handshake failed") }).1
      = { performRegistrationFirstSend none sampleState with
          registrationPromise := some (Except.error "handshake failed") } ∧
    (∀ r ∈ (registerMany [(fun _ => false, none), (fun _ => false, none)]
        { performRegistrationFirstSend none sampleState with
          registrationPromise := some (Except.error "handshake failed") }).2,
      ∀ r' ∈ (registerMany [(fun _ => false, none), (fun _ => false, none)]
        { performRegistrationFirstSend none sampleState with
          registrationPromise := some (Except.error "handshake failed") }).2, r = r') ∧
    (∀ e, (Except.error "handshake failed" : Except String Unit) = Except.error e →
      ∀ r ∈ (registerMany [(fun _ => false, none), (fun _ => false, none)]
        { performRegistrationFirstSend none sampleState with
          registrationPromise := some (Except.error "handshake failed") }).2,
        r = Except.error e)) :=
  ⟨rfl, rfl, register_single_flight sampleState none (Except.error "handshake failed")
    [(fun _ => false, none), (fun _ => false, none)] rfl rfl⟩

/-- Witness for C3: the three spec example URLs are all rejected by the
validator, and on a registered session each verb fails with the exact
`Invalid or unauthorized URL` error, touching no state; the `..` example
is run through the full claim theorem. -/
theorem httpVerbs_invalid_url_witness :
    (containsSub "..".toList "../../../etc/passwd".toList = true ∧
     validateRelativeUrl "../../../etc/passwd" = false ∧
     validateRelativeUrl "http://evil.com/api" = false ∧
     validateRelativeUrl "/unauthorized/endpoint" = false) ∧
    ((sampleRegistered.inIframe = true → sampleRegistered.isRegistered = true →
       httpGET (fun _ => false) (Except.error ()) sampleRegistered "../../../etc/passwd"
         = (sampleRegistered, Except.error "Invalid or unauthorized URL") ∧
       httpPOST (fun _ => false) (Except.error ()) sampleRegistered "../../../etc/passwd"
           JsValue.null
         = (sampleRegistered, Except.error "Invalid or unauthorized URL") ∧
       httpPUT (fun _ => false) (Except.error ()) sampleRegistered "../../../etc/passwd"
           JsValue.null
         = (sampleRegistered, Except.error "Invalid or unauthorized URL") ∧
       httpDELETE (fun _ => false) (Except.error ()) sampleRegistered "../../../etc/passwd"
         = (sampleRegistered, Except.error "Invalid or unauthorized URL")) ∧
     ∀ nm, ¬ nm = "register" →
       ((httpGET (fun _ => false) (Except.error ()) sampleRegistered
           "../../../etc/passwd").1.sent.filter (fun m => m.name == nm)
           = sampleRegistered.sent.filter (fun m => m.name == nm)) ∧
       ((httpPOST (fun _ => false) (Except.error ()) sampleRegistered
           "../../../etc/passwd" JsValue.null).1.sent.filter (fun m => m.name == nm)
           = sampleRegistered.sent.filter (fun m => m.name == nm)) ∧
       ((httpPUT (fun _ => false) (Except.error ()) sampleRegistered
           "../../../etc/passwd" JsValue.null).1.sent.filter (fun m => m.name == nm)
           = sampleRegistered.sent.filter (fun m => m.name == nm)) ∧
       ((httpDELETE (fun _ => false) (Except.error ()) sampleRegistered
           "../../../etc/passwd").1.sent.filter (fun m => m.name == nm)
           = sampleRegistered.sent.filter (fun m => m.name == nm))) :=
  ⟨⟨by decide, by decide, by decide, by decide⟩,
   httpVerbs_invalid_url (fun _ => false) (Except.error ()) sampleRegistered
     "../../../etc/passwd" JsValue.null (Or.inr (Or.inl (by decide)))⟩

/-- Witness for C4: terminal failure at a concrete fresh session and an
always-failing transport. -/
theorem register_terminal_failure_witness :
    (∀ n, (fun _ => false : AttemptReplies) n = false) ∧
    sampleState.inIframe = true ∧ sampleState.isRegistered = false ∧
    sampleState.registrationPromise = none ∧
    sampleState.registrationAttempts ≤ maxRegistrationAttempts ∧
    ((register (fun _ => false) none sampleState).2 = Except.error regFailureMsg ∧
     (register (fun _ => false) none sampleState).1.errorCbCalls
       = sampleState.errorCbCalls + 1 ∧
     (register (fun _ => false) none sampleState).1.emitted
       = sampleState.emitted ++ [("error", JsValue.str regFailureMsg)] ∧
     isReady (register (fun _ => false) none sampleState).1 = false ∧
     (register (fun _ => false) none sampleState).1.registrationPromise
       = some (Except.error regFailureMsg) ∧
     ∀ calls, (registerMany calls (register (fun _ => false) none sampleState).1).1
         = (register (fun _ => false) none sampleState).1 ∧
       ∀ r ∈ (registerMany calls (register (fun _ => false) none sampleState).1).2,
         r = Except.error regFailureMsg) :=
  ⟨fun _ => rfl, rfl, rfl, rfl, by decide,
   register_terminal_failure (fun _ => false) none sampleState (fun _ => rfl)
     rfl rfl rfl (by decide)⟩

/-- Witness for C5: a transport that accepts exactly the fourth attempt,
on a concrete fresh session. -/
theorem register_fourth_attempt_succeeds_witness :
    sampleState.inIframe = true ∧ sampleState.isRegistered = false ∧
    sampleState.registrationPromise = none ∧
    sampleState.registrationAttempts = 0 ∧ sampleState.sent = [] ∧
    ((fun n => n == 3 : AttemptReplies) 0 = false ∧
     (fun n => n == 3 : AttemptReplies) 1 = false ∧
     (fun n => n == 3 : AttemptReplies) 2 = false ∧
     (fun n => n == 3 : AttemptReplies) 3 = true) ∧
    ((register (fun n => n == 3) none sampleState).2 = Except.ok true ∧
     registerSendCount (register (fun n => n == 3) none sampleState).1 = 4 ∧
     (register (fun n => n == 3) none sampleState).1.isRegistered = true) :=
  ⟨rfl, rfl, rfl, rfl, rfl, ⟨rfl, rfl, rfl, rfl⟩,
   register_fourth_attempt_succeeds (fun n => n == 3) none sampleState
     rfl rfl rfl rfl rfl rfl rfl rfl rfl⟩

/-- Witness for C6: `httpGET('/entity/Candidate/123')` on a concrete
registered session with a successful transport reply. -/
theorem httpGET_after_registration_witness :
    sampleRegistered.inIframe = true ∧ sampleRegistered.isRegistered = true ∧
    httpGET (fun _ => true) (Except.ok ⟨JsValue.str "candidate-data"⟩)
        sampleRegistered "/entity/Candidate/123"
      = ({ sampleRegistered with sent := sampleRegistered.sent ++
            [{ name := "httpGET",
               payload := JsValue.obj
                 [("relativeURL", JsValue.str "/entity/Candidate/123")],
               timeout := 10000, domain := some sampleRegistered.allowedOrigins }] },
         Except.ok (JsValue.str "candidate-data")) :=
  ⟨rfl, rfl,
   httpGET_after_registration (fun _ => true) (Except.ok ⟨JsValue.str "candidate-data"⟩)
     sampleRegistered rfl rfl⟩

/-- Witness for C7: the exhausted budget at a concrete fresh session — the
second call is given an always-succeeding transport and still fails with
the stored terminal error, sending nothing. -/
theorem register_exhausted_budget_witness :
    (∀ n, (fun _ => false : AttemptReplies) n = false) ∧
    sampleState.inIframe = true ∧ sampleState.isRegistered = false ∧
    sampleState.registrationPromise = none ∧
    sampleState.registrationAttempts ≤ maxRegistrationAttempts ∧
    ((register (fun _ => false) none sampleState).2 = Except.error regFailureMsg ∧
     register (fun _ => true) none (register (fun _ => false) none sampleState).1
       = ((register (fun _ => false) none sampleState).1, Except.error regFailureMsg) ∧
     registerSendCount
         (register (fun _ => true) none (register (fun _ => false) none sampleState).1).1
       = registerSendCount (register (fun _ => false) none sampleState).1) :=
  ⟨fun _ => rfl, rfl, rfl, rfl, by decide,
   register_exhausted_budget (fun _ => false) (fun _ => true) none none sampleState
     (fun _ => rfl) rfl rfl rfl (by decide)⟩

end BullhornBridge
